import Mathlib

/-!
Shallow embedding of `src/authentication/models.py` (NoteApp authentication
models).  Django model instances become records, the database becomes an
explicit `Store` value threaded through every operation, and every operation
that in the source raises `UserError(*user_errors)` instead returns
`Except (List String) α` paired with the (possibly mutated) store.  Time is an
abstract `Nat` passed in as `now`; external collaborators (feature flags,
bcrypt, sha1, base32, TOTP, the mail sender, and the regex validators from the
`errors.validators` module) are fields of an `Env` record, since their inner
workings are outside the model logic being verified.
-/

namespace NoteApp

/-! ### Constants from `authentication/models.py` -/

def USER_STANDARD : Nat := 0
def USER_ADMIN : Nat := 1
def METHOD_PASSWORD : Nat := 0
def METHOD_VALIDATION_TOKEN : Nat := 1
def METHOD_RECOVERY_TOKEN : Nat := 2
def METHOD_OATH_KEY : Nat := 3
def METHOD_ACTIVE : Nat := 1
def METHOD_INACTIVE : Nat := 0
def TOKEN_NEW_USER : String := "new-user"
def INVALID_LOGIN : String := "invalid-login"
def INVALID_RECOVERY : String := "invalid-recovery"

/-- `VALIDATION_TIME = datetime.timedelta(hours=5)`, measured here in seconds. -/
def VALIDATION_TIME : Nat := 5 * 3600

/-- `TOKEN_TIME = datetime.timedelta(days=30)`, measured here in seconds. -/
def TOKEN_TIME : Nat := 30 * 86400

/-! ### Data model: `Users`, `Methods`, `Tokens` rows -/

/-- A row of the `Users` model.  `id` is the database primary key (the Python
code treats a missing `id` as "unsaved"; the embedding only manipulates saved
rows, which always carry an id). -/
structure User where
  id : Nat
  username : String
  first_name : String
  last_name : String
  email : String
  user_type : Nat
  active : Bool
  last_access : Option Nat
  validated : Bool
deriving Repr, DecidableEq

/-- A row of the `Methods` model.  `user` is the id of the owning `Users`
row (Django foreign key). -/
structure Method where
  id : Nat
  user : Nat
  method : Nat
  password : String
  token : String
  step : Nat
  status : Nat
  last_used : Option Nat
  expiration : Option Nat
deriving Repr, DecidableEq

/-- `Methods.expired`: false when `expiration` is unset, else `now > expiration`. -/
def Method.expired (m : Method) (now : Nat) : Bool :=
  match m.expiration with
  | none => false
  | some e => decide (now > e)

/-- A row of the `Tokens` model (system-wide single-use tokens). -/
structure Token where
  id : Nat
  purpose : String
  token : String
  exhausted : Bool
  expiration : Option Nat
deriving Repr, DecidableEq

/-- `Tokens.expired`: false when `expiration` is unset, else `now > expiration`. -/
def Token.expired (t : Token) (now : Nat) : Bool :=
  match t.expiration with
  | none => false
  | some e => decide (now > e)

/-- The database: the three tables plus fresh-id counters for row creation. -/
structure Store where
  users : List User
  methods : List Method
  tokens : List Token
  next_user_id : Nat
  next_method_id : Nat
deriving Repr, DecidableEq

/-! ### External collaborators (feature flags, crypto, mail, validators) -/

/-- External collaborators of the model code.  `new_users_setting` /
`new_users_data` mirror `meta.models.Data.objects.get(tag='new-users')`,
`user_login_setting` the `'user-login'` flag.  `hashpw pw salt` stands for
`bcrypt.hashpw(pw, salt)`; bcrypt verification in the source recomputes
`hashpw(candidate, stored_hash)` and compares it with the stored hash.
`valid_username` etc. are the regex / policy predicates of the external
`errors.validators` module.  `email_ok` tells whether `send_mail` succeeds. -/
structure Env where
  new_users_setting : Nat
  new_users_data : String
  user_login_setting : Nat
  valid_username : String → Bool
  valid_name : String → Bool
  valid_email : String → Bool
  valid_password : String → Bool
  valid_token : String → Bool
  hashpw : String → String → String
  gensalt : String
  sha1_hexdigest : String → String
  b32encode : String → String
  get_totp : String → String
  email_ok : Bool

/-! ### Store helpers (queryset get / save / filter) -/

/-- Django `queryset.get(...)`: succeeds only when exactly one row matches
(otherwise `DoesNotExist` / `MultipleObjectsReturned`). -/
def getUnique {α : Type} (l : List α) : Option α :=
  match l with
  | [a] => some a
  | _ => none

/-- ASCII lower-casing of one character (what Django's `iexact` lookup and
Python's `str.lower` do on the alphanumeric identifiers used here). -/
def lowerChar (c : Char) : Char :=
  if 65 ≤ c.toNat ∧ c.toNat ≤ 90 then Char.ofNat (c.toNat + 32) else c

def lower (s : String) : String := String.mk (s.data.map lowerChar)

/-- Case-insensitive match, Django's `field__iexact` lookup. -/
def iexact (a b : String) : Bool := lower a == lower b

/-- `row.save()` on an existing row: replace the row with the same key. -/
def updateBy {α : Type} (key : α → Nat) (x : α) (l : List α) : List α :=
  l.map fun v => if key v == key x then x else v

def saveUser (s : Store) (u : User) : Store :=
  { s with users := updateBy User.id u s.users }

def saveMethod (s : Store) (m : Method) : Store :=
  { s with methods := updateBy Method.id m s.methods }

def saveToken (s : Store) (t : Token) : Store :=
  { s with tokens := updateBy Token.id t s.tokens }

/-! ### `UserManager.create` -/

/-- The raw `user_info` keyword dict passed to `UserManager.create`
(`None` = key absent). -/
structure RegInfo where
  username : Option String
  first_name : Option String
  last_name : Option String
  email : Option String
  password : Option String
  token : Option String
deriving Repr, DecidableEq

/-- The voluptuous schema check in `UserManager.create`: collects all field
errors (required-key and pattern violations; the `token` key is in the schema
only when registration is token-gated, so an unexpected `token` key is an
extra-key violation). -/
def schemaErrors (env : Env) (token_required : Bool) (info : RegInfo) :
    List String :=
  (match info.username with
   | none => ["username-required"]
   | some u => if env.valid_username u then [] else ["invalid-username"]) ++
  (match info.first_name with
   | none => []
   | some n => if env.valid_name n then [] else ["invalid-first-name"]) ++
  (match info.last_name with
   | none => []
   | some n => if env.valid_name n then [] else ["invalid-last-name"]) ++
  (match info.email with
   | none => ["email-required"]
   | some e => if env.valid_email e then [] else ["invalid-email"]) ++
  (match info.password with
   | none => ["password-required"]
   | some p => if env.valid_password p then [] else ["invalid-password"]) ++
  (if token_required then
    match info.token with
    | none => ["token-required"]
    | some t => if env.valid_token t then [] else ["invalid-token"]
   else
    match info.token with
    | none => []
    | some _ => ["extra-keys-not-allowed"])

/-- Tail of `UserManager.create` common to the gated and ungated paths: hash
the password, build the password `Method` (step 1) and the validation-token
`Method` (step 0, token = sha1 of email + random salt), persist the consumed
system token if any, create the `Users` row, save both methods, then attempt
the validation email — a send failure raises `validation-email-failure` with
everything already committed. -/
def createCommit (env : Env) (random_salt : String)
    (username first_name last_name email password : String)
    (token_save : Option Token) (s : Store) :
    Except (List String) User × Store :=
  let encrypted_password := env.hashpw password env.gensalt
  let vtoken := env.sha1_hexdigest (email ++ random_salt)
  let s1 := match token_save with
    | none => s
    | some tok => saveToken s tok
  let uid := s1.next_user_id
  let user_object : User :=
    { id := uid, username := username, first_name := first_name,
      last_name := last_name, email := email, user_type := USER_STANDARD,
      active := true, last_access := none, validated := false }
  let s2 := { s1 with users := s1.users ++ [user_object],
                      next_user_id := uid + 1 }
  let password_method : Method :=
    { id := s2.next_method_id, user := uid, method := METHOD_PASSWORD,
      password := encrypted_password, token := "", step := 1,
      status := METHOD_ACTIVE, last_used := none, expiration := none }
  let validation_token_method : Method :=
    { id := s2.next_method_id + 1, user := uid,
      method := METHOD_VALIDATION_TOKEN, password := "", token := vtoken,
      step := 0, status := METHOD_ACTIVE, last_used := none,
      expiration := none }
  let s3 := { s2 with
    methods := s2.methods ++ [password_method, validation_token_method],
    next_method_id := s2.next_method_id + 2 }
  if env.email_ok then (Except.ok user_object, s3)
  else (Except.error ["validation-email-failure"], s3)

/-- `UserManager.create`: feature-flag gate, schema validation, duplicate
username/email check, optional system-token consumption, then `createCommit`. -/
def create (env : Env) (random_salt : String) (info : RegInfo) (now : Nat)
    (s : Store) : Except (List String) User × Store :=
  let token_required := env.new_users_setting == 0 &&
    env.new_users_data == "token"
  if env.new_users_setting == 0 && !(env.new_users_data == "token") then
    (Except.error ["creation-disabled"], s)
  else
    let errs := schemaErrors env token_required info
    if errs.isEmpty then
      let username := info.username.getD ""
      let email := info.email.getD ""
      let password := info.password.getD ""
      let dup_errs :=
        (if (s.users.filter fun u => iexact u.username username).isEmpty
         then [] else ["user-exists"]) ++
        (if (s.users.filter fun u => iexact u.email email).isEmpty
         then [] else ["email-exists"])
      if dup_errs.isEmpty then
        if token_required then
          let tval := info.token.getD ""
          match getUnique (s.tokens.filter fun t =>
              t.purpose == TOKEN_NEW_USER && t.token == tval) with
          | none => (Except.error ["no-such-token"], s)
          | some token_object =>
            let tok_errs :=
              (if token_object.exhausted then ["token-exhausted"] else []) ++
              (if token_object.expired now then ["token-expired"] else [])
            if tok_errs.isEmpty then
              createCommit env random_salt username (info.first_name.getD "")
                (info.last_name.getD "") email password
                (some { token_object with exhausted := true }) s
            else (Except.error tok_errs, s)
        else
          createCommit env random_salt username (info.first_name.getD "")
            (info.last_name.getD "") email password none s
      else (Except.error dup_errs, s)
    else (Except.error errs, s)

/-! ### `UserManager.login_password`, `login_oath`, `login_recovery` -/

/-- `UserManager.login_password`.  The username/password are present strings
(the source's schema only checks presence and `str`-ness of the two keys).
Note the inactive-user path raises `user-inactive`, a code distinct from
`INVALID_LOGIN`. -/
def login_password (env : Env) (update_access : Bool)
    (username password : String) (now : Nat) (s : Store) :
    Except (List String) User × Store :=
  if env.user_login_setting == 0 then (Except.error ["login-disabled"], s)
  else
    match getUnique (s.users.filter fun u => iexact u.username username) with
    | none => (Except.error [INVALID_LOGIN], s)
    | some user_object =>
      if !user_object.active then (Except.error ["user-inactive"], s)
      else
        match getUnique (s.methods.filter fun m =>
            m.user == user_object.id && m.method == METHOD_PASSWORD &&
            m.step == 1 && m.status == METHOD_ACTIVE) with
        | none => (Except.error [INVALID_LOGIN], s)
        | some method_object =>
          if env.hashpw password method_object.password ==
              method_object.password then
            let s1 := saveMethod s { method_object with last_used := some now }
            if update_access then
              let user1 := { user_object with last_access := some now }
              (Except.ok user1, saveUser s1 user1)
            else (Except.ok user_object, s1)
          else (Except.error [INVALID_LOGIN], s)

/-- `UserManager.login_oath`: password login with `update_access=False`, then
the step-2 active OATH method's current TOTP code must match. -/
def login_oath (env : Env) (token username password : String) (now : Nat)
    (s : Store) : Except (List String) User × Store :=
  match login_password env false username password now s with
  | (Except.error e, s1) => (Except.error e, s1)
  | (Except.ok user_object, s1) =>
    match getUnique (s1.methods.filter fun m =>
        m.user == user_object.id && m.method == METHOD_OATH_KEY &&
        m.step == 2 && m.status == METHOD_ACTIVE) with
    | none => (Except.error [INVALID_LOGIN], s1)
    | some method_object =>
      if env.get_totp method_object.token == token then
        let s2 := saveMethod s1 { method_object with last_used := some now }
        let user1 := { user_object with last_access := some now }
        (Except.ok user1, saveUser s2 user1)
      else (Except.error [INVALID_LOGIN], s1)

/-- `UserManager.login_recovery`: validate the token format, find the active
user, find the matching active recovery method, deactivate it regardless of
expiration, then reject if expired. -/
def login_recovery (env : Env) (username token : String) (now : Nat)
    (s : Store) : Except (List String) User × Store :=
  if !env.valid_token token then (Except.error ["invalid-token"], s)
  else
    match getUnique (s.users.filter fun u =>
        iexact u.username username && u.active) with
    | none => (Except.error [INVALID_RECOVERY], s)
    | some user_object =>
      match getUnique (s.methods.filter fun m =>
          m.user == user_object.id && m.method == METHOD_RECOVERY_TOKEN &&
          m.status == METHOD_ACTIVE && m.token == token) with
      | none => (Except.error [INVALID_RECOVERY], s)
      | some method_object =>
        let m1 := { method_object with status := METHOD_INACTIVE }
        let s1 := saveMethod s m1
        if m1.expired now then (Except.error [INVALID_RECOVERY], s1)
        else
          let m2 := { m1 with last_used := some now }
          let s2 := saveMethod s1 m2
          let user1 := { user_object with last_access := some now }
          (Except.ok user1, saveUser s2 user1)

/-! ### `Users` instance methods -/

/-- `Users.deactivate`: set `active = False`, save, then delete every
`Methods` row of this user. -/
def deactivate (user : User) (s : Store) : User × Store :=
  let user1 := { user with active := false }
  let s1 := saveUser s user1
  (user1, { s1 with methods := s1.methods.filter fun m => !(m.user == user.id) })

/-- `Users.activate`: set `active = True` and save. -/
def activate (user : User) (s : Store) : User × Store :=
  let user1 := { user with active := true }
  (user1, saveUser s user1)

/-- `Users.recover`: deactivate all prior active recovery methods, create a
fresh active recovery method (token = sha1 of email + random salt, expiring
`VALIDATION_TIME` from now), then email it; a send failure raises
`recovery-email-failure` with the method already saved. -/
def recover (env : Env) (user : User) (random_salt : String) (now : Nat)
    (s : Store) : Except (List String) Unit × Store :=
  let s1 := { s with methods := s.methods.map fun (m : Method) =>
    if m.user == user.id && m.method == METHOD_RECOVERY_TOKEN &&
        m.status == METHOD_ACTIVE
    then { m with status := METHOD_INACTIVE } else m }
  let token := env.sha1_hexdigest (user.email ++ random_salt)
  let method_object : Method :=
    { id := s1.next_method_id, user := user.id,
      method := METHOD_RECOVERY_TOKEN, password := "", token := token,
      step := 0, status := METHOD_ACTIVE, last_used := none,
      expiration := some (now + VALIDATION_TIME) }
  let s2 := { s1 with methods := s1.methods ++ [method_object],
                      next_method_id := s1.next_method_id + 1 }
  if env.email_ok then (Except.ok (), s2)
  else (Except.error ["recovery-email-failure"], s2)

/-- `Users.generate_oath`: delete every OATH method of the user, then store a
fresh active step-2 OATH method whose token is the base32 encoding of the
random seed string, and return that key. -/
def generate_oath (env : Env) (user : User) (random : String) (s : Store) :
    String × Store :=
  let s1 := { s with methods := s.methods.filter fun m =>
    !(m.user == user.id && m.method == METHOD_OATH_KEY) }
  let key := env.b32encode random
  let method_object : Method :=
    { id := s1.next_method_id, user := user.id, method := METHOD_OATH_KEY,
      password := "", token := key, step := 2, status := METHOD_ACTIVE,
      last_used := none, expiration := none }
  (key, { s1 with methods := s1.methods ++ [method_object],
                  next_method_id := s1.next_method_id + 1 })

/-- `Users.validate`: a missing or empty token (`if not token`) raises
`token-required`; a malformed one `invalid-token`; a missing active matching
validation method `invalid-token`; the found method is deactivated (and
`last_used` stamped) unconditionally, then expiry raises `token-expired`;
on success `validated` is set on the user. -/
def validate (env : Env) (user : User) (token : Option String) (now : Nat)
    (s : Store) : Except (List String) Unit × Store :=
  match token with
  | none => (Except.error ["token-required"], s)
  | some t =>
    if t == "" then (Except.error ["token-required"], s)
    else if !env.valid_token t then (Except.error ["invalid-token"], s)
    else
      match getUnique (s.methods.filter fun (m : Method) =>
          m.user == user.id && m.method == METHOD_VALIDATION_TOKEN &&
          m.status == METHOD_ACTIVE && m.token == t) with
      | none => (Except.error ["invalid-token"], s)
      | some method_object =>
        let m1 := { method_object with status := METHOD_INACTIVE,
                                       last_used := some now }
        let s1 := saveMethod s m1
        if m1.expired now then (Except.error ["token-expired"], s1)
        else
          let user1 := { user with validated := true }
          (Except.ok (), saveUser s1 user1)

/-! ### Helper lemmas about `updateBy` (row save) and `List.filter` -/

theorem mem_updateBy {α : Type} (key : α → Nat) (a : α) (l : List α) (x : α)
    (hx : x ∈ updateBy key a l) : x = a ∨ (x ∈ l ∧ key x ≠ key a) := by
  induction l with
  | nil => simp [updateBy] at hx
  | cons h t ih =>
    simp only [updateBy, List.map_cons, List.mem_cons] at hx
    rcases hx with hx | hx
    · by_cases hk : key h == key a
      · simp [hk] at hx; exact Or.inl hx
      · simp [hk] at hx
        subst hx
        exact Or.inr ⟨List.mem_cons_self _ _, by simpa using hk⟩
    · rcases ih hx with h1 | h1
      · exact Or.inl h1
      · exact Or.inr ⟨List.mem_cons_of_mem _ h1.1, h1.2⟩

theorem self_mem_updateBy {α : Type} (key : α → Nat) (a : α) (l : List α)
    (b : α) (hb : b ∈ l) (hk : key b = key a) : a ∈ updateBy key a l := by
  induction l with
  | nil => simp at hb
  | cons h t ih =>
    rcases List.mem_cons.mp hb with rfl | hb
    · simp [updateBy, hk]
    · simp only [updateBy, List.map_cons, List.mem_cons]
      exact Or.inr (ih hb)

theorem filter_updateBy_nil {α : Type} (key : α → Nat) (q : α → Bool) (a : α)
    (l : List α) (hqa : q a = false) (hl : l.filter q = []) :
    (updateBy key a l).filter q = [] := by
  rw [List.filter_eq_nil_iff] at hl ⊢
  intro x hx
  rcases mem_updateBy key a l x hx with rfl | ⟨hmem, _⟩
  · simp [hqa]
  · exact hl x hmem

theorem filter_updateBy_burn {α : Type} (key : α → Nat) (q : α → Bool)
    (a m : α) (l : List α) (hl : l.filter q = [m]) (hk : key a = key m)
    (hqa : q a = false) : (updateBy key a l).filter q = [] := by
  have hm : ∀ v ∈ l, q v = true → v = m := by
    intro v hv hq
    have hvf : v ∈ l.filter q := List.mem_filter.mpr ⟨hv, hq⟩
    rw [hl] at hvf
    simpa using hvf
  rw [List.filter_eq_nil_iff]
  intro x hx
  rcases mem_updateBy key a l x hx with rfl | ⟨hmem, hkx⟩
  · simp [hqa]
  · intro hq
    have hxm : x = m := hm x hmem hq
    rw [hxm] at hkx
    exact hkx hk.symm

theorem updateBy_no_match {α : Type} (key : α → Nat) (a : α) (l : List α)
    (h : ∀ v ∈ l, key v ≠ key a) : updateBy key a l = l := by
  induction l with
  | nil => rfl
  | cons hd t ih =>
    have hhd : ¬(key hd == key a) := by
      simpa using h hd (List.mem_cons_self _ _)
    simp only [updateBy, List.map_cons, if_neg hhd]
    rw [show (List.map (fun v => if key v == key a then a else v) t) =
      updateBy key a t from rfl,
      ih (fun v hv => h v (List.mem_cons_of_mem _ hv))]

theorem of_filter_single {α : Type} (q : α → Bool) (m : α) (l : List α)
    (hl : l.filter q = [m]) : m ∈ l ∧ q m = true := by
  have : m ∈ l.filter q := by rw [hl]; exact List.mem_cons_self _ _
  exact List.mem_filter.mp this

theorem filter_updateBy_keep {α : Type} (key : α → Nat) (q : α → Bool)
    (a m : α) (l : List α) (hl : l.filter q = [m])
    (hids : ∀ v ∈ l, key v = key m → v = m) (hk : key a = key m)
    (hqa : q a = true) : (updateBy key a l).filter q = [a] := by
  induction l with
  | nil => simp at hl
  | cons h t ih =>
    by_cases hqh : q h
    · have hl' : h :: t.filter q = [m] := by
        rw [← hl]; simp [List.filter_cons, hqh]
      have hhm : h = m := by injection hl'
      have ht : t.filter q = [] := by injection hl'
      have htq : ∀ v ∈ t, q v = false := by
        intro v hv
        have := List.filter_eq_nil_iff.mp ht v hv
        simpa using this
      have hkh : (key h == key a) = true := by
        rw [hhm, hk]; exact beq_self_eq_true _
      have hrest : updateBy key a t = t := by
        apply updateBy_no_match
        intro v hv hkv
        have hvm : v = m := hids v (List.mem_cons_of_mem _ hv) (hkv.trans hk)
        have hqv : q v = false := htq v hv
        rw [hvm, ← hhm, hqh] at hqv
        exact Bool.noConfusion hqv
      simp only [updateBy, List.map_cons]
      rw [if_pos hkh]
      rw [show (List.map (fun v => if key v == key a then a else v) t) =
        updateBy key a t from rfl, hrest]
      rw [List.filter_cons, if_pos (by simp [hqa]), ht]
    · have hl' : t.filter q = [m] := by
        rw [← hl]; simp [List.filter_cons, hqh]
      have hmq := of_filter_single q m t hl'
      have hkh : ¬(key h == key a) := by
        intro hcon
        have hkeq : key h = key a := by simpa using hcon
        have hhm : h = m := hids h (List.mem_cons_self _ _) (hkeq.trans hk)
        rw [hhm] at hqh
        exact hqh hmq.2
      simp only [updateBy, List.map_cons, if_neg hkh]
      rw [show (List.map (fun v => if key v == key a then a else v) t) =
        updateBy key a t from rfl]
      rw [List.filter_cons]
      simp only [hqh, if_false, Bool.false_eq_true, ite_false]
      exact ih hl' (fun v hv => hids v (List.mem_cons_of_mem _ hv))

theorem filter_updateBy_le {α : Type} (key : α → Nat) (q : α → Bool) (a : α)
    (l : List α) (hqa : q a = false) :
    ((updateBy key a l).filter q).length ≤ (l.filter q).length := by
  induction l with
  | nil => simp [updateBy]
  | cons h t ih =>
    simp only [updateBy, List.map_cons]
    rw [show (List.map (fun v => if key v == key a then a else v) t) =
      updateBy key a t from rfl]
    by_cases hkh : key h == key a
    · rw [if_pos hkh, List.filter_cons, List.filter_cons]
      simp only [hqa, Bool.false_eq_true, if_false]
      by_cases hqh : q h
      · simp only [hqh, if_true]
        exact Nat.le_trans ih (by simp)
      · simp only [hqh, Bool.false_eq_true, if_false]
        exact ih
    · rw [if_neg hkh, List.filter_cons, List.filter_cons]
      by_cases hqh : q h
      · simp only [hqh, if_true, List.length_cons]
        exact Nat.succ_le_succ ih
      · simp only [hqh, Bool.false_eq_true, if_false]
        exact ih

theorem filter_updateBy_untouched {α : Type} (key : α → Nat) (q : α → Bool)
    (a : α) (l : List α) (hl : ∀ v ∈ l, key v = key a → q v = false)
    (hqa : q a = false) : (updateBy key a l).filter q = l.filter q := by
  induction l with
  | nil => rfl
  | cons h t ih =>
    simp only [updateBy, List.map_cons]
    rw [show (List.map (fun v => if key v == key a then a else v) t) =
      updateBy key a t from rfl]
    have htail := ih (fun v hv => hl v (List.mem_cons_of_mem _ hv))
    by_cases hkh : key h == key a
    · have hqh : q h = false := hl h (List.mem_cons_self _ _) (by simpa using hkh)
      rw [if_pos hkh, List.filter_cons, List.filter_cons]
      simp only [hqa, hqh, Bool.false_eq_true, if_false]
      exact htail
    · rw [if_neg hkh, List.filter_cons, List.filter_cons, htail]

theorem filter_filter_of_imp {α : Type} (p q : α → Bool) (l : List α)
    (h : ∀ x, q x = true → p x = true) :
    (l.filter p).filter q = l.filter q := by
  induction l with
  | nil => rfl
  | cons hd t ih =>
    by_cases hq : q hd
    · have hp : p hd = true := h hd hq
      rw [List.filter_cons, if_pos (by simp [hp]), List.filter_cons,
        if_pos (by simp [hq]), List.filter_cons, if_pos (by simp [hq]), ih]
    · by_cases hp : p hd
      · rw [List.filter_cons, if_pos (by simp [hp]), List.filter_cons]
        simp only [hq, Bool.false_eq_true, if_false]
        rw [List.filter_cons]
        simp only [hq, Bool.false_eq_true, if_false]
        exact ih
      · rw [List.filter_cons]
        simp only [hp, Bool.false_eq_true, if_false]
        rw [List.filter_cons]
        simp only [hq, Bool.false_eq_true, if_false]
        exact ih

/-! ### Concrete fixtures used by witnesses and counterexamples -/

/-- A concrete environment: registration and login enabled, all validators
accepting, deterministic stand-ins for bcrypt / sha1 / base32 / TOTP, and a
working mail sender. -/
def testEnv : Env :=
  { new_users_setting := 1, new_users_data := "", user_login_setting := 1,
    valid_username := fun _ => true, valid_name := fun _ => true,
    valid_email := fun _ => true, valid_password := fun _ => true,
    valid_token := fun _ => true,
    hashpw := fun p _ => "h-" ++ p, gensalt := "salt",
    sha1_hexdigest := fun x => "sha-" ++ x,
    b32encode := fun x => "b32-" ++ x,
    get_totp := fun x => "totp-" ++ x,
    email_ok := true }

def emptyStore : Store :=
  { users := [], methods := [], tokens := [], next_user_id := 1,
    next_method_id := 1 }

def alice : User :=
  { id := 1, username := "alice", first_name := "", last_name := "",
    email := "alice@example.com", user_type := USER_STANDARD, active := true,
    last_access := none, validated := false }

def alicePasswordMethod : Method :=
  { id := 1, user := 1, method := METHOD_PASSWORD, password := "h-pw",
    token := "", step := 1, status := METHOD_ACTIVE, last_used := none,
    expiration := none }

def regAlice : RegInfo :=
  { username := some "alice", first_name := none, last_name := none,
    email := some "alice@example.com", password := some "pw", token := none }

/-! ### C5 — registration disabled -/

/-- C5 (amended): when the `new-users` feature flag is disabled and not
token-gated, `create` fails immediately with the single error
`creation-disabled`, for every submitted field map and store — in particular
no field validation is performed and the store is untouched. -/
theorem c5_registration_disabled (env : Env) (random_salt : String)
    (info : RegInfo) (now : Nat) (s : Store)
    (hset : env.new_users_setting = 0)
    (hdata : env.new_users_data ≠ "token") :
    create env random_salt info now s =
      (Except.error ["creation-disabled"], s) := by
  unfold create
  simp [hset, hdata]

/-- C5 witness: the disabled-flag theorem applied at a concrete input whose
fields are not even well-formed (empty username, no email, no password). -/
theorem c5_registration_disabled_witness :
    create { testEnv with new_users_setting := 0 } "s"
      { username := some "", first_name := none, last_name := none,
        email := none, password := none, token := none } 0 emptyStore =
      (Except.error ["creation-disabled"], emptyStore) :=
  c5_registration_disabled { testEnv with new_users_setting := 0 } "s"
    { username := some "", first_name := none, last_name := none,
      email := none, password := none, token := none } 0 emptyStore rfl
    (by decide)

/-- C5 counterexample: the claim names the error `registration-disabled`, but
the code's single error on this path is the string `creation-disabled`. -/
theorem c5_counterexample :
    (create { testEnv with new_users_setting := 0 } "s" regAlice 0
      emptyStore).1 = Except.error ["creation-disabled"] ∧
    "creation-disabled" ≠ "registration-disabled" := by
  exact ⟨rfl, by decide⟩

/-! ### C6 — duplicate username and duplicate email both reported -/

/-- C6: when registration passes the feature-flag gate and field validation,
and both the username and the email collide case-insensitively with existing
users, `create` fails with exactly `[user-exists, email-exists]` — neither
collision masks the other — and the store is unchanged. -/
theorem c6_both_duplicates_reported (env : Env) (random_salt : String)
    (info : RegInfo) (now : Nat) (s : Store) (username email : String)
    (henabled : env.new_users_setting ≠ 0 ∨ env.new_users_data = "token")
    (hschema : schemaErrors env
      (env.new_users_setting == 0 && env.new_users_data == "token") info = [])
    (hu : info.username = some username) (he : info.email = some email)
    (hdup_u : (s.users.filter fun u => iexact u.username username) ≠ [])
    (hdup_e : (s.users.filter fun u => iexact u.email email) ≠ []) :
    create env random_salt info now s =
      (Except.error ["user-exists", "email-exists"], s) := by
  have hgate : (env.new_users_setting == 0 &&
      !(env.new_users_data == "token")) = false := by
    rcases henabled with h | h <;> simp [h]
  have hf1 : (s.users.filter fun u => iexact u.username username).isEmpty
      = false := by
    rw [← Bool.not_eq_true, List.isEmpty_iff]; exact hdup_u
  have hf2 : (s.users.filter fun u => iexact u.email email).isEmpty
      = false := by
    rw [← Bool.not_eq_true, List.isEmpty_iff]; exact hdup_e
  unfold create
  rw [hgate]
  simp only [if_false, Bool.false_eq_true]
  rw [hschema]
  simp only [List.isEmpty_nil, if_true]
  rw [hu, he]
  simp only [Option.getD_some]
  simp only [hf1, hf2]
  simp

/-- C6 witness: registering `Alice` with `ALICE@EXAMPLE.COM` against a store
already holding user `alice` with that email reports both collisions. -/
theorem c6_both_duplicates_reported_witness :
    create testEnv "s"
      { username := some "Alice", first_name := none, last_name := none,
        email := some "ALICE@EXAMPLE.COM", password := some "pw2",
        token := none } 0
      { emptyStore with users := [alice], next_user_id := 2 } =
      (Except.error ["user-exists", "email-exists"],
       { emptyStore with users := [alice], next_user_id := 2 }) :=
  c6_both_duplicates_reported testEnv "s"
    { username := some "Alice", first_name := none, last_name := none,
      email := some "ALICE@EXAMPLE.COM", password := some "pw2",
      token := none } 0
    { emptyStore with users := [alice], next_user_id := 2 }
    "Alice" "ALICE@EXAMPLE.COM" (Or.inl (by decide)) rfl rfl rfl
    (by decide) (by decide)

/-! ### C4 — token-gated registration: system token lookup errors -/

/-- A token-gated registration environment. -/
def gatedEnv : Env :=
  { testEnv with new_users_setting := 0, new_users_data := "token" }

/-- C4 (amended): in token-gated registration, with valid fields and no
username/email collision, looking up the system token by purpose
`new-user` and the supplied value yields: `no-such-token` when no such row
exists; `token-exhausted` when it is exhausted but unexpired;
`token-expired` when it is expired but unexhausted; and both
`token-exhausted` and `token-expired` together in the one failing error
list when it is both.  The store is unchanged in every case. -/
theorem c4_system_token_errors (env : Env) (random_salt : String)
    (info : RegInfo) (now : Nat) (s : Store) (username email tval : String)
    (hset : env.new_users_setting = 0) (hdata : env.new_users_data = "token")
    (hschema : schemaErrors env true info = [])
    (hu : info.username = some username) (he : info.email = some email)
    (ht : info.token = some tval)
    (hnd1 : (s.users.filter fun u => iexact u.username username) = [])
    (hnd2 : (s.users.filter fun u => iexact u.email email) = []) :
    ((s.tokens.filter fun t =>
        t.purpose == TOKEN_NEW_USER && t.token == tval) = [] →
      create env random_salt info now s =
        (Except.error ["no-such-token"], s)) ∧
    (∀ tok : Token, (s.tokens.filter fun t =>
        t.purpose == TOKEN_NEW_USER && t.token == tval) = [tok] →
      (tok.exhausted = true → tok.expired now = false →
        create env random_salt info now s =
          (Except.error ["token-exhausted"], s)) ∧
      (tok.exhausted = false → tok.expired now = true →
        create env random_salt info now s =
          (Except.error ["token-expired"], s)) ∧
      (tok.exhausted = true → tok.expired now = true →
        create env random_salt info now s =
          (Except.error ["token-exhausted", "token-expired"], s))) := by
  refine ⟨fun hnone => ?_,
    fun tok htok => ⟨fun hex hexp => ?_, fun hex hexp => ?_,
      fun hex hexp => ?_⟩⟩ <;>
  · unfold create
    simp [hset, hdata, hschema, hu, he, ht, hnd1, hnd2, getUnique,
      *]

/-- C4 witness: the token-error theorem applied with a concrete gated
environment and a store whose token table is empty (so the first conjunct
fires), also exhibiting the exhausted/expired conjuncts as implications. -/
theorem c4_system_token_errors_witness :
    create gatedEnv "s"
      { regAlice with token := some "tok1" } 0 emptyStore =
      (Except.error ["no-such-token"], emptyStore) :=
  (c4_system_token_errors gatedEnv "s"
    { regAlice with token := some "tok1" } 0 emptyStore
    "alice" "alice@example.com" "tok1" rfl rfl (by decide) rfl rfl rfl
    rfl rfl).1 rfl

/-- C4 counterexample: the claim names the missing-ticket error
`no-such-ticket`, but the code's error string is `no-such-token`. -/
theorem c4_counterexample :
    (create gatedEnv "s" { regAlice with token := some "tok1" } 0
      emptyStore).1 = Except.error ["no-such-token"] ∧
    "no-such-token" ≠ "no-such-ticket" := by
  exact ⟨rfl, by decide⟩

/-! ### C2 — login_password error codes -/

/-- A store holding the active user `alice` and her password method. -/
def aliceStore : Store :=
  { users := [alice], methods := [alicePasswordMethod], tokens := [],
    next_user_id := 2, next_method_id := 2 }

/-- A store holding only the inactive user `carol`. -/
def carolStore : Store :=
  { users := [{ alice with username := "carol", active := false }],
    methods := [], tokens := [], next_user_id := 2, next_method_id := 1 }

/-- C2 (amended): with login enabled, `login_password` returns the single
ambiguous code `invalid-login` for an unknown username, for a found active
user with no active step-1 password method, and for a bcrypt mismatch — but a
found *inactive* user gets the distinct code `user-inactive`.  The store is
unchanged on every failing path. -/
theorem c2_login_password_error_codes (env : Env) (update_access : Bool)
    (username password : String) (now : Nat) (s : Store)
    (henabled : env.user_login_setting ≠ 0) :
    ((s.users.filter fun u => iexact u.username username) = [] →
      login_password env update_access username password now s =
        (Except.error [INVALID_LOGIN], s)) ∧
    (∀ u : User, (s.users.filter fun v => iexact v.username username) = [u] →
      (u.active = false →
        login_password env update_access username password now s =
          (Except.error ["user-inactive"], s)) ∧
      (u.active = true →
        (s.methods.filter fun m => m.user == u.id &&
          m.method == METHOD_PASSWORD && m.step == 1 &&
          m.status == METHOD_ACTIVE) = [] →
        login_password env update_access username password now s =
          (Except.error [INVALID_LOGIN], s)) ∧
      (∀ pm : Method, u.active = true →
        (s.methods.filter fun m => m.user == u.id &&
          m.method == METHOD_PASSWORD && m.step == 1 &&
          m.status == METHOD_ACTIVE) = [pm] →
        env.hashpw password pm.password ≠ pm.password →
        login_password env update_access username password now s =
          (Except.error [INVALID_LOGIN], s))) := by
  have hgate : (env.user_login_setting == 0) = false := by
    simpa using henabled
  refine ⟨fun hnone => ?_,
    fun u hu => ⟨fun hact => ?_, fun hact hm => ?_,
      fun pm hact hm hpw => ?_⟩⟩ <;>
  · unfold login_password
    simp [hgate, getUnique, *]

/-- C2 witness: with user `alice` (active, bcrypt stand-in matching) present,
a lookup for the unknown username `bob` yields `invalid-login`. -/
theorem c2_login_password_error_codes_witness :
    login_password testEnv true "bob" "pw" 0 aliceStore =
      (Except.error [INVALID_LOGIN], aliceStore) :=
  (c2_login_password_error_codes testEnv true "bob" "pw" 0 aliceStore
    (by decide)).1 (by decide)

/-- C2 counterexample: for a found-but-inactive user the code returns the
distinct error `user-inactive`, not the claimed common code `invalid-login`. -/
theorem c2_counterexample :
    (login_password testEnv true "carol" "pw" 0 carolStore).1 =
      Except.error ["user-inactive"] ∧
    "user-inactive" ≠ INVALID_LOGIN := by
  exact ⟨rfl, by decide⟩

/-! ### C7 — account validation burns the ticket, flips validated on success -/

/-- Alice's pending (active, unexpired) validation-token method. -/
def aliceValidationMethod : Method :=
  { id := 2, user := 1, method := METHOD_VALIDATION_TOKEN, password := "",
    token := "vtok", step := 0, status := METHOD_ACTIVE, last_used := none,
    expiration := none }

/-- A store with `alice`, her password method, and her validation method. -/
def validateStore : Store :=
  { users := [alice], methods := [alicePasswordMethod, aliceValidationMethod],
    tokens := [], next_user_id := 2, next_method_id := 3 }

/-- C7: for a persisted user and a well-formed ticket, `validate` fails with
`invalid-token` (store untouched) when no active validation method of that
user matches; otherwise the matching method is unconditionally deactivated
(and `last_used` stamped), after which an expired method yields
`token-expired` with the user rows untouched (`validated` unchanged), while
an unexpired one yields success with `validated = true` saved on the user
and no further method change. -/
theorem c7_validate_burns_and_flips (env : Env) (user : User) (t : String)
    (now : Nat) (s : Store) (htne : t ≠ "") (hvt : env.valid_token t = true)
    (huser : user ∈ s.users) :
    ((s.methods.filter fun m => m.user == user.id &&
        m.method == METHOD_VALIDATION_TOKEN && m.status == METHOD_ACTIVE &&
        m.token == t) = [] →
      validate env user (some t) now s =
        (Except.error ["invalid-token"], s)) ∧
    (∀ m : Method, (s.methods.filter fun v => v.user == user.id &&
        v.method == METHOD_VALIDATION_TOKEN && v.status == METHOD_ACTIVE &&
        v.token == t) = [m] →
      ({ m with status := METHOD_INACTIVE, last_used := some now } ∈
        (validate env user (some t) now s).2.methods) ∧
      (m.expired now = true →
        validate env user (some t) now s =
          (Except.error ["token-expired"],
           saveMethod s { m with status := METHOD_INACTIVE,
                                 last_used := some now })) ∧
      (m.expired now = false →
        (validate env user (some t) now s).1 = Except.ok () ∧
        { user with validated := true } ∈
          (validate env user (some t) now s).2.users ∧
        (validate env user (some t) now s).2.methods =
          (saveMethod s { m with status := METHOD_INACTIVE,
                                 last_used := some now }).methods)) := by
  have hte : (t == "") = false := by
    simpa using htne
  have hvt' : (!env.valid_token t) = false := by rw [hvt]; rfl
  constructor
  · intro hnone
    unfold validate
    simp [hte, hvt', hnone, getUnique]
  · intro m hm
    have hmem : m ∈ s.methods := (of_filter_single _ m s.methods hm).1
    have hexp_eq : Method.expired
        { m with status := METHOD_INACTIVE, last_used := some now } now =
        m.expired now := rfl
    have hres : validate env user (some t) now s =
        (if m.expired now then
          (Except.error ["token-expired"],
           saveMethod s { m with status := METHOD_INACTIVE,
                                 last_used := some now })
         else
          (Except.ok (),
           saveUser (saveMethod s { m with status := METHOD_INACTIVE,
                                           last_used := some now })
             { user with validated := true })) := by
      unfold validate
      simp only [hte, Bool.false_eq_true, if_false, hvt', hm, getUnique,
        hexp_eq]
    refine ⟨?_, fun hexp => ?_, fun hexp => ?_⟩
    · rw [hres]
      by_cases hexp : m.expired now
      · simp only [hexp, if_true]
        exact self_mem_updateBy Method.id _ s.methods m hmem rfl
      · simp only [hexp, Bool.false_eq_true, if_false]
        exact self_mem_updateBy Method.id _ s.methods m hmem rfl
    · rw [hres, if_pos hexp]
    · rw [hres]
      simp only [hexp, Bool.false_eq_true, if_false]
      refine ⟨by simp, ?_, by simp [saveUser]⟩
      exact self_mem_updateBy User.id _ _ user huser rfl

/-- C7 witness: validating `alice` against a store holding her single active
validation method with the matching token succeeds, burns the method, and
sets `validated`. -/
theorem c7_validate_burns_and_flips_witness :
    ((validateStore.methods.filter fun v => v.user == alice.id &&
        v.method == METHOD_VALIDATION_TOKEN && v.status == METHOD_ACTIVE &&
        v.token == "vtok") = [aliceValidationMethod]) ∧
    (validate testEnv alice (some "vtok") 0 validateStore).1 =
      Except.ok () ∧
    { alice with validated := true } ∈
      (validate testEnv alice (some "vtok") 0 validateStore).2.users := by
  have h := (c7_validate_burns_and_flips testEnv alice "vtok" 0
    validateStore (by decide) rfl (by decide)).2 aliceValidationMethod
    (by decide)
  have h2 := h.2.2 (by decide)
  exact ⟨by decide, h2.1, h2.2.1⟩

/-! ### C1 — recovery login burns the ticket even when expired -/

/-- C1: for an active user found by `login_recovery` with a well-formed
ticket matching that user's single active recovery method, the method is left
Inactive in the resulting store no matter what; if the method is expired the
call fails with `invalid-recovery` (yet the method is burned); and a
subsequent `login_recovery` with the same ticket value against the resulting
store fails with `invalid-recovery` on both the expired and the success
path. -/
theorem c1_recovery_ticket_one_shot (env : Env) (username t : String)
    (now now2 : Nat) (s : Store) (u : User) (m : Method)
    (hvt : env.valid_token t = true)
    (hu : (s.users.filter fun v => iexact v.username username && v.active)
      = [u])
    (hm : (s.methods.filter fun v => v.user == u.id &&
      v.method == METHOD_RECOVERY_TOKEN && v.status == METHOD_ACTIVE &&
      v.token == t) = [m])
    (huids : ∀ v ∈ s.users, v.id = u.id → v = u) :
    (∃ m' ∈ (login_recovery env username t now s).2.methods,
       m'.id = m.id ∧ m'.status = METHOD_INACTIVE ∧ m'.token = m.token) ∧
    (m.expired now = true →
      login_recovery env username t now s =
        (Except.error [INVALID_RECOVERY],
         saveMethod s { m with status := METHOD_INACTIVE })) ∧
    (login_recovery env username t now2
        (login_recovery env username t now s).2).1 =
      Except.error [INVALID_RECOVERY] := by
  have hvt' : (!env.valid_token t) = false := by rw [hvt]; rfl
  have hmem : m ∈ s.methods := (of_filter_single _ m s.methods hm).1
  have hpu : (iexact u.username username && u.active) = true :=
    (of_filter_single _ u s.users hu).2
  have hexp_eq : Method.expired { m with status := METHOD_INACTIVE } now =
      m.expired now := rfl
  have hq1 : (fun (v : Method) => v.user == u.id &&
      v.method == METHOD_RECOVERY_TOKEN && v.status == METHOD_ACTIVE &&
      v.token == t) { m with status := METHOD_INACTIVE } = false := by
    simp [METHOD_INACTIVE, METHOD_ACTIVE]
  have hq2 : (fun (v : Method) => v.user == u.id &&
      v.method == METHOD_RECOVERY_TOKEN && v.status == METHOD_ACTIVE &&
      v.token == t)
      { m with status := METHOD_INACTIVE, last_used := some now } = false := by
    simp [METHOD_INACTIVE, METHOD_ACTIVE]
  have hres : login_recovery env username t now s =
      (if m.expired now then
        (Except.error [INVALID_RECOVERY],
         saveMethod s { m with status := METHOD_INACTIVE })
       else
        (Except.ok { u with last_access := some now },
         saveUser
           (saveMethod (saveMethod s { m with status := METHOD_INACTIVE })
             { m with status := METHOD_INACTIVE, last_used := some now })
           { u with last_access := some now })) := by
    unfold login_recovery
    simp only [hvt', Bool.false_eq_true, if_false, hu, getUnique, hm,
      hexp_eq]
  have hburn1 : List.filter (fun v => v.user == u.id &&
      v.method == METHOD_RECOVERY_TOKEN && v.status == METHOD_ACTIVE &&
      v.token == t)
      (updateBy Method.id { m with status := METHOD_INACTIVE } s.methods)
      = [] :=
    filter_updateBy_burn Method.id _ _ m s.methods hm rfl hq1
  have hburn2 : List.filter (fun v => v.user == u.id &&
      v.method == METHOD_RECOVERY_TOKEN && v.status == METHOD_ACTIVE &&
      v.token == t)
      (updateBy Method.id
        { m with status := METHOD_INACTIVE, last_used := some now }
        (updateBy Method.id { m with status := METHOD_INACTIVE } s.methods))
      = [] :=
    filter_updateBy_nil Method.id _ _ _ hq2 hburn1
  refine ⟨?_, fun hexp => ?_, ?_⟩
  · rw [hres]
    by_cases hexp : m.expired now
    · simp only [hexp, if_true]
      exact ⟨{ m with status := METHOD_INACTIVE },
        self_mem_updateBy Method.id _ s.methods m hmem rfl, rfl, rfl, rfl⟩
    · simp only [hexp, Bool.false_eq_true, if_false]
      refine ⟨{ m with status := METHOD_INACTIVE, last_used := some now },
        ?_, rfl, rfl, rfl⟩
      exact self_mem_updateBy Method.id _ _
        { m with status := METHOD_INACTIVE }
        (self_mem_updateBy Method.id _ s.methods m hmem rfl) rfl
  · rw [hres, if_pos hexp]
  · rw [hres]
    by_cases hexp : m.expired now
    · simp only [hexp, if_true]
      unfold login_recovery
      simp only [hvt', Bool.false_eq_true, if_false, saveMethod, hu,
        getUnique, hburn1]
    · simp only [hexp, Bool.false_eq_true, if_false]
      have hkeep : List.filter
          (fun v => iexact v.username username && v.active)
          (updateBy User.id { u with last_access := some now } s.users) =
          [{ u with last_access := some now }] :=
        filter_updateBy_keep User.id _ _ u s.users hu huids rfl hpu
      unfold login_recovery
      simp only [hvt', Bool.false_eq_true, if_false, saveUser, saveMethod,
        hkeep, getUnique, hburn2]

/-- Alice's active recovery-token method, already expired at time 10. -/
def aliceRecoveryMethod : Method :=
  { id := 2, user := 1, method := METHOD_RECOVERY_TOKEN, password := "",
    token := "rtok", step := 0, status := METHOD_ACTIVE, last_used := none,
    expiration := some 5 }

/-- A store with `alice`, her password method, and the expired recovery
method. -/
def recoveryStore : Store :=
  { users := [alice], methods := [alicePasswordMethod, aliceRecoveryMethod],
    tokens := [], next_user_id := 2, next_method_id := 3 }

/-- C1 witness: consuming the expired recovery ticket at time 10 fails with
`invalid-recovery` yet flips the method to Inactive, and a second attempt
with the same ticket value fails with `invalid-recovery` again. -/
theorem c1_recovery_ticket_one_shot_witness :
    login_recovery testEnv "alice" "rtok" 10 recoveryStore =
      (Except.error [INVALID_RECOVERY],
       saveMethod recoveryStore
         { aliceRecoveryMethod with status := METHOD_INACTIVE }) ∧
    (login_recovery testEnv "alice" "rtok" 11
        (login_recovery testEnv "alice" "rtok" 10 recoveryStore).2).1 =
      Except.error [INVALID_RECOVERY] := by
  have h := c1_recovery_ticket_one_shot testEnv "alice" "rtok" 10 11
    recoveryStore alice aliceRecoveryMethod rfl (by decide) (by decide)
    (by decide)
  exact ⟨h.2.1 (by decide), h.2.2⟩

/-! ### C3 — failed validation email still leaves registration committed -/

/-- A fresh, unexpired `new-user` system token. -/
def newUserToken : Token :=
  { id := 1, purpose := "new-user", token := "tok1", exhausted := false,
    expiration := none }

/-- An otherwise empty store holding only `newUserToken`. -/
def tokenStore : Store :=
  { users := [], methods := [], tokens := [newUserToken], next_user_id := 1,
    next_method_id := 1 }

/-- C3: when an otherwise-successful registration's validation email send
fails, `create` reports `validation-email-failure`, yet the resulting store
already holds the new User row, its step-1 password method hashed from the
submitted password, its validation-token method (sha1 of email plus salt),
and — when token-gated — the consumed system token persisted as exhausted. -/
theorem c3_email_failure_after_commit (env : Env) (random_salt : String)
    (info : RegInfo) (now : Nat) (s : Store)
    (username email password tval : String) (tok : Token)
    (hmail : env.email_ok = false)
    (henabled : env.new_users_setting ≠ 0 ∨ env.new_users_data = "token")
    (hschema : schemaErrors env
      (env.new_users_setting == 0 && env.new_users_data == "token") info = [])
    (hu : info.username = some username) (he : info.email = some email)
    (hp : info.password = some password)
    (hnd1 : (s.users.filter fun u => iexact u.username username) = [])
    (hnd2 : (s.users.filter fun u => iexact u.email email) = [])
    (htok : (env.new_users_setting == 0 && env.new_users_data == "token")
        = true →
      info.token = some tval ∧
      (s.tokens.filter fun x => x.purpose == TOKEN_NEW_USER &&
        x.token == tval) = [tok] ∧
      tok.exhausted = false ∧ tok.expired now = false) :
    (create env random_salt info now s).1 =
      Except.error ["validation-email-failure"] ∧
    (∃ nu ∈ (create env random_salt info now s).2.users,
      nu.id = s.next_user_id ∧ nu.username = username ∧ nu.email = email ∧
      nu.validated = false) ∧
    (∃ pm ∈ (create env random_salt info now s).2.methods,
      pm.user = s.next_user_id ∧ pm.method = METHOD_PASSWORD ∧
      pm.step = 1 ∧ pm.status = METHOD_ACTIVE ∧
      pm.password = env.hashpw password env.gensalt) ∧
    (∃ vm ∈ (create env random_salt info now s).2.methods,
      vm.user = s.next_user_id ∧ vm.method = METHOD_VALIDATION_TOKEN ∧
      vm.status = METHOD_ACTIVE ∧
      vm.token = env.sha1_hexdigest (email ++ random_salt)) ∧
    ((env.new_users_setting == 0 && env.new_users_data == "token") = true →
      { tok with exhausted := true } ∈
        (create env random_salt info now s).2.tokens) := by
  have hgate : (env.new_users_setting == 0 &&
      !(env.new_users_data == "token")) = false := by
    rcases henabled with h | h <;> simp [h]
  by_cases hg : (env.new_users_setting == 0 &&
      env.new_users_data == "token") = true
  · obtain ⟨ht, hfil, hex, hexp⟩ := htok hg
    rw [hg] at hschema
    have htmem : tok ∈ s.tokens := (of_filter_single _ tok s.tokens hfil).1
    have hR : create env random_salt info now s =
        (Except.error ["validation-email-failure"],
         { users := s.users ++
             [{ id := s.next_user_id, username := username,
                first_name := info.first_name.getD "",
                last_name := info.last_name.getD "", email := email,
                user_type := USER_STANDARD, active := true,
                last_access := none, validated := false }],
           methods := s.methods ++
             [{ id := s.next_method_id, user := s.next_user_id,
                method := METHOD_PASSWORD,
                password := env.hashpw password env.gensalt, token := "",
                step := 1, status := METHOD_ACTIVE, last_used := none,
                expiration := none },
              { id := s.next_method_id + 1, user := s.next_user_id,
                method := METHOD_VALIDATION_TOKEN, password := "",
                token := env.sha1_hexdigest (email ++ random_salt),
                step := 0, status := METHOD_ACTIVE, last_used := none,
                expiration := none }],
           tokens := updateBy Token.id { tok with exhausted := true }
             s.tokens,
           next_user_id := s.next_user_id + 1,
           next_method_id := s.next_method_id + 2 }) := by
      unfold create createCommit
      simp only [hgate, Bool.false_eq_true, if_false, hschema,
        List.isEmpty_nil, if_true, hu, he, hp, ht, Option.getD_some, hnd1,
        hnd2, List.isEmpty_cons, List.append_nil, hg, hfil, getUnique, hex,
        hexp, hmail, saveToken]
    rw [hR]
    refine ⟨rfl, ?_, ?_, ?_, fun _ => ?_⟩
    · exact ⟨{ id := s.next_user_id, username := username,
               first_name := info.first_name.getD "",
               last_name := info.last_name.getD "", email := email,
               user_type := USER_STANDARD, active := true,
               last_access := none, validated := false },
        List.mem_append_right _ (by simp), rfl, rfl, rfl, rfl⟩
    · exact ⟨{ id := s.next_method_id, user := s.next_user_id,
               method := METHOD_PASSWORD,
               password := env.hashpw password env.gensalt, token := "",
               step := 1, status := METHOD_ACTIVE, last_used := none,
               expiration := none },
        List.mem_append_right _ (by simp), rfl, rfl, rfl, rfl, rfl⟩
    · exact ⟨{ id := s.next_method_id + 1, user := s.next_user_id,
               method := METHOD_VALIDATION_TOKEN, password := "",
               token := env.sha1_hexdigest (email ++ random_salt),
               step := 0, status := METHOD_ACTIVE, last_used := none,
               expiration := none },
        List.mem_append_right _ (by simp), rfl, rfl, rfl, rfl⟩
    · exact self_mem_updateBy Token.id _ s.tokens tok htmem rfl
  · have hg' : (env.new_users_setting == 0 &&
        env.new_users_data == "token") = false := by
      simpa using hg
    rw [hg'] at hschema
    have hR : create env random_salt info now s =
        (Except.error ["validation-email-failure"],
         { users := s.users ++
             [{ id := s.next_user_id, username := username,
                first_name := info.first_name.getD "",
                last_name := info.last_name.getD "", email := email,
                user_type := USER_STANDARD, active := true,
                last_access := none, validated := false }],
           methods := s.methods ++
             [{ id := s.next_method_id, user := s.next_user_id,
                method := METHOD_PASSWORD,
                password := env.hashpw password env.gensalt, token := "",
                step := 1, status := METHOD_ACTIVE, last_used := none,
                expiration := none },
              { id := s.next_method_id + 1, user := s.next_user_id,
                method := METHOD_VALIDATION_TOKEN, password := "",
                token := env.sha1_hexdigest (email ++ random_salt),
                step := 0, status := METHOD_ACTIVE, last_used := none,
                expiration := none }],
           tokens := s.tokens,
           next_user_id := s.next_user_id + 1,
           next_method_id := s.next_method_id + 2 }) := by
      unfold create createCommit
      simp only [hgate, Bool.false_eq_true, if_false, hschema,
        List.isEmpty_nil, if_true, hu, he, hp, Option.getD_some, hnd1,
        hnd2, List.isEmpty_cons, List.append_nil, hg', hmail]
    rw [hR]
    refine ⟨rfl, ?_, ?_, ?_, fun hcon => ?_⟩
    · exact ⟨{ id := s.next_user_id, username := username,
               first_name := info.first_name.getD "",
               last_name := info.last_name.getD "", email := email,
               user_type := USER_STANDARD, active := true,
               last_access := none, validated := false },
        List.mem_append_right _ (by simp), rfl, rfl, rfl, rfl⟩
    · exact ⟨{ id := s.next_method_id, user := s.next_user_id,
               method := METHOD_PASSWORD,
               password := env.hashpw password env.gensalt, token := "",
               step := 1, status := METHOD_ACTIVE, last_used := none,
               expiration := none },
        List.mem_append_right _ (by simp), rfl, rfl, rfl, rfl, rfl⟩
    · exact ⟨{ id := s.next_method_id + 1, user := s.next_user_id,
               method := METHOD_VALIDATION_TOKEN, password := "",
               token := env.sha1_hexdigest (email ++ random_salt),
               step := 0, status := METHOD_ACTIVE, last_used := none,
               expiration := none },
        List.mem_append_right _ (by simp), rfl, rfl, rfl, rfl⟩
    · rw [hg'] at hcon
      exact Bool.noConfusion hcon

/-- C3 witness: a token-gated registration with a failing mail sender reports
`validation-email-failure` while the new user row is nonetheless present in
the resulting store. -/
theorem c3_email_failure_after_commit_witness :
    (create { gatedEnv with email_ok := false } "s"
      { regAlice with token := some "tok1" } 0 tokenStore).1 =
      Except.error ["validation-email-failure"] ∧
    (∃ nu ∈ (create { gatedEnv with email_ok := false } "s"
        { regAlice with token := some "tok1" } 0 tokenStore).2.users,
      nu.id = tokenStore.next_user_id ∧ nu.username = "alice" ∧
      nu.email = "alice@example.com" ∧ nu.validated = false) := by
  have h := c3_email_failure_after_commit { gatedEnv with email_ok := false }
    "s" { regAlice with token := some "tok1" } 0 tokenStore
    "alice" "alice@example.com" "pw" "tok1" newUserToken rfl
    (Or.inr rfl) (by decide) rfl rfl rfl rfl rfl
    (fun _ => ⟨rfl, by decide, rfl, rfl⟩)
  exact ⟨h.1, h.2.1⟩

/-! ### C8 — at most one active recovery method per user -/

/-- Number of active recovery-token methods a user has in a store. -/
def activeRecoveryCount (s : Store) (uid : Nat) : Nat :=
  (s.methods.filter fun m => m.user == uid &&
    m.method == METHOD_RECOVERY_TOKEN && m.status == METHOD_ACTIVE).length

/-- C8: `recover` deactivates every previously active recovery method of the
user before adding the single fresh one, so afterwards the user has at most
one active recovery method; and the other operations that touch recovery
methods preserve the bound: `login_recovery` never increases any user's
active-recovery count, and `deactivate` drops the user's count to zero. -/
theorem c8_at_most_one_active_recovery (env env2 : Env) (user user3 : User)
    (random_salt username t : String) (now now2 : Nat) (s s2 s3 : Store)
    (uid : Nat) :
    activeRecoveryCount (recover env user random_salt now s).2 user.id ≤ 1 ∧
    activeRecoveryCount (login_recovery env2 username t now2 s2).2 uid ≤
      activeRecoveryCount s2 uid ∧
    activeRecoveryCount (deactivate user3 s3).2 user3.id = 0 := by
  refine ⟨?_, ?_, ?_⟩
  · unfold recover activeRecoveryCount
    have hmap : List.filter (fun m => m.user == user.id &&
        m.method == METHOD_RECOVERY_TOKEN && m.status == METHOD_ACTIVE)
        (s.methods.map fun (m : Method) =>
          if m.user == user.id && m.method == METHOD_RECOVERY_TOKEN &&
              m.status == METHOD_ACTIVE
          then { m with status := METHOD_INACTIVE } else m) = [] := by
      rw [List.filter_eq_nil_iff]
      intro x hx
      obtain ⟨v, hv, rfl⟩ := List.mem_map.mp hx
      by_cases hc : (v.user == user.id && v.method == METHOD_RECOVERY_TOKEN
        && v.status == METHOD_ACTIVE) = true
      · simp only [hc, if_true]
        simp [METHOD_INACTIVE, METHOD_ACTIVE]
      · simp only [hc, Bool.false_eq_true, if_false]
        simpa using hc
    by_cases hmail : env.email_ok
    · simp only [hmail, if_true, List.filter_append, hmap]
      simp [METHOD_RECOVERY_TOKEN, METHOD_ACTIVE]
    · simp only [hmail, Bool.false_eq_true, if_false, List.filter_append,
        hmap]
      simp [METHOD_RECOVERY_TOKEN, METHOD_ACTIVE]
  · unfold login_recovery activeRecoveryCount
    by_cases hv : env2.valid_token t
    · simp only [hv, Bool.not_true, Bool.false_eq_true, if_false]
      cases hU : getUnique (List.filter
          (fun u => iexact u.username username && u.active) s2.users) with
      | none => dsimp only; exact Nat.le_refl _
      | some uo =>
        dsimp only
        cases hM : getUnique (List.filter (fun m => m.user == uo.id &&
            m.method == METHOD_RECOVERY_TOKEN &&
            m.status == METHOD_ACTIVE && m.token == t) s2.methods) with
        | none => dsimp only; exact Nat.le_refl _
        | some mo =>
          dsimp only
          by_cases hexp :
            Method.expired { mo with status := METHOD_INACTIVE } now2 = true
          · rw [if_pos hexp]
            simp only [saveMethod]
            exact filter_updateBy_le Method.id _ _ s2.methods
              (by simp [METHOD_INACTIVE, METHOD_ACTIVE])
          · rw [if_neg hexp]
            simp only [saveUser, saveMethod]
            exact Nat.le_trans
              (filter_updateBy_le Method.id _ _ _
                (by simp [METHOD_INACTIVE, METHOD_ACTIVE]))
              (filter_updateBy_le Method.id _ _ s2.methods
                (by simp [METHOD_INACTIVE, METHOD_ACTIVE]))
    · simp only [hv, Bool.not_false, if_true]
      exact Nat.le_refl _
  · unfold deactivate activeRecoveryCount
    simp only [saveUser]
    rw [List.filter_eq_nil_iff.mpr ?_]
    · rfl
    · intro x hx hq
      have hkeep : (!(x.user == user3.id)) = true :=
        (List.mem_filter.mp hx).2
      have hx1 : (x.user == user3.id) = false := by
        simpa using hkeep
      rw [hx1] at hq
      simp at hq

/-! ### C10 — deactivate wipes methods; reactivation does not restore login -/

/-- C10: `deactivate` saves the user with `active = false` and deletes every
method row belonging to that user while leaving other users' methods in
place; and even after `activate` restores the flag, `login_password` for
that user fails with `invalid-login` because no password method remains. -/
theorem c10_deactivate_deletes_methods (env : Env) (u : User) (pw : String)
    (now : Nat) (s : Store) (henabled : env.user_login_setting ≠ 0)
    (hmem : u ∈ s.users)
    (hlookup : (s.users.filter fun v => iexact v.username u.username) = [u])
    (huids : ∀ v ∈ s.users, v.id = u.id → v = u) :
    ({ u with active := false } ∈ (deactivate u s).2.users) ∧
    (∀ m ∈ (deactivate u s).2.methods, m.user ≠ u.id) ∧
    (∀ m ∈ s.methods, m.user ≠ u.id → m ∈ (deactivate u s).2.methods) ∧
    (login_password env true u.username pw now
        (activate (deactivate u s).1 (deactivate u s).2).2).1 =
      Except.error [INVALID_LOGIN] := by
  have hgate : (env.user_login_setting == 0) = false := by
    simpa using henabled
  have hpu : (iexact u.username u.username) = true := by
    simp [iexact]
  have hpu' : (iexact u.username u.username && u.active) = true ∨ True :=
    Or.inr trivial
  refine ⟨?_, ?_, ?_, ?_⟩
  · unfold deactivate
    exact self_mem_updateBy User.id _ s.users u hmem rfl
  · intro m hm
    unfold deactivate at hm
    have hkeep := (List.mem_filter.mp hm).2
    simpa using hkeep
  · intro m hm hne
    unfold deactivate
    exact List.mem_filter.mpr ⟨hm, by simpa using hne⟩
  · have hkeep1 : List.filter (fun v => iexact v.username u.username)
        (updateBy User.id { u with active := false } s.users) =
        [{ u with active := false }] :=
      filter_updateBy_keep User.id _ _ u s.users hlookup huids rfl hpu
    have hids1 : ∀ v ∈ updateBy User.id { u with active := false } s.users,
        v.id = u.id → v = { u with active := false } := by
      intro v hv hvid
      rcases mem_updateBy User.id _ s.users v hv with rfl | ⟨hvs, hvk⟩
      · rfl
      · exact absurd hvid hvk
    have hkeep2 : List.filter (fun v => iexact v.username u.username)
        (updateBy User.id { u with active := true }
          (updateBy User.id { u with active := false } s.users)) =
        [{ u with active := true }] :=
      filter_updateBy_keep User.id _ _ { u with active := false } _ hkeep1
        hids1 rfl hpu
    have hnopw : List.filter (fun m => m.user == u.id &&
        m.method == METHOD_PASSWORD && m.step == 1 &&
        m.status == METHOD_ACTIVE)
        (s.methods.filter fun m => !(m.user == u.id)) = [] := by
      rw [List.filter_eq_nil_iff]
      intro x hx
      have hkeep := (List.mem_filter.mp hx).2
      have hx1 : (x.user == u.id) = false := by simpa using hkeep
      simp [hx1]
    unfold login_password activate deactivate
    simp only [hgate, Bool.false_eq_true, if_false, saveUser]
    rw [hkeep2]
    dsimp only [getUnique]
    rw [hnopw]
    rfl

/-- C10 witness: deactivating `alice` then reactivating her leaves her with
no password method, so password login fails with `invalid-login`. -/
theorem c10_deactivate_deletes_methods_witness :
    ({ alice with active := false } ∈
      (deactivate alice aliceStore).2.users) ∧
    (login_password testEnv true "alice" "pw" 0
        (activate (deactivate alice aliceStore).1
          (deactivate alice aliceStore).2).2).1 =
      Except.error [INVALID_LOGIN] := by
  have h := c10_deactivate_deletes_methods testEnv alice "pw" 0 aliceStore
    (by decide) (by decide) (by decide) (by decide)
  exact ⟨h.1, h.2.2.2⟩

/-! ### C9 — OATH re-enrollment invalidates the first secret -/

/-- The OATH method row `generate_oath` stores: active, step 2, token =
base32 of the seed. -/
def freshOathMethod (env : Env) (uid mid : Nat) (r : String) : Method :=
  { id := mid, user := uid, method := METHOD_OATH_KEY, password := "",
    token := env.b32encode r, step := 2, status := METHOD_ACTIVE,
    last_used := none, expiration := none }

/-- C9: `generate_oath` returns the base32 encoding of the fresh seed, and a
second call for the same user (with fresh seed material yielding a different
key) first deletes every OATH method of the user, so no method holding the
first secret remains; a fresh active step-2 method holding the second secret
is stored; and a TOTP code computed from the first secret then makes
`login_oath` fail with `invalid-login` (given correct password credentials
and distinct TOTP codes for the two secrets). -/
theorem c9_oath_regeneration_invalidates (env : Env) (u : User)
    (r1 r2 uname pw : String) (now : Nat) (s : Store) (pm : Method)
    (hfresh : ∀ v ∈ s.methods, v.token ≠ env.b32encode r1)
    (hkeys : env.b32encode r1 ≠ env.b32encode r2)
    (henabled : env.user_login_setting ≠ 0)
    (hlookup : (s.users.filter fun v => iexact v.username uname) = [u])
    (hactive : u.active = true)
    (hpm : (s.methods.filter fun m => m.user == u.id &&
      m.method == METHOD_PASSWORD && m.step == 1 &&
      m.status == METHOD_ACTIVE) = [pm])
    (hhash : env.hashpw pw pm.password = pm.password)
    (hpmid : pm.id ≠ s.next_method_id + 1)
    (htotp : env.get_totp (env.b32encode r1) ≠
      env.get_totp (env.b32encode r2)) :
    (generate_oath env u r1 s).1 = env.b32encode r1 ∧
    (∀ v ∈ (generate_oath env u r2 (generate_oath env u r1 s).2).2.methods,
      v.token ≠ (generate_oath env u r1 s).1) ∧
    (∃ om ∈ (generate_oath env u r2 (generate_oath env u r1 s).2).2.methods,
      om.token = env.b32encode r2 ∧ om.method = METHOD_OATH_KEY ∧
      om.step = 2 ∧ om.status = METHOD_ACTIVE) ∧
    (login_oath env (env.get_totp (env.b32encode r1)) uname pw now
        (generate_oath env u r2 (generate_oath env u r1 s).2).2).1 =
      Except.error [INVALID_LOGIN] := by
  have hgate : (env.user_login_setting == 0) = false := by
    simpa using henabled
  have hpm_true := (of_filter_single _ pm s.methods hpm).2
  simp only [Bool.and_eq_true] at hpm_true
  have hpm_method : pm.method = METHOD_PASSWORD := by
    simpa using hpm_true.1.1.2
  have hmethods :
      (generate_oath env u r2 (generate_oath env u r1 s).2).2.methods =
      (((s.methods.filter fun (m : Method) =>
          !(m.user == u.id && m.method == METHOD_OATH_KEY)) ++
        [freshOathMethod env u.id s.next_method_id r1]).filter
          fun (m : Method) =>
          !(m.user == u.id && m.method == METHOD_OATH_KEY)) ++
        [freshOathMethod env u.id (s.next_method_id + 1) r2] := rfl
  have himp_pw : ∀ x : Method, (x.user == u.id &&
      x.method == METHOD_PASSWORD && x.step == 1 &&
      x.status == METHOD_ACTIVE) = true →
      (!(x.user == u.id && x.method == METHOD_OATH_KEY)) = true := by
    intro x hx
    simp only [Bool.and_eq_true] at hx
    have hxm : x.method = METHOD_PASSWORD := by simpa using hx.1.1.2
    simp [hxm, METHOD_PASSWORD, METHOD_OATH_KEY]
  have hpw2 : List.filter (fun m => m.user == u.id &&
      m.method == METHOD_PASSWORD && m.step == 1 &&
      m.status == METHOD_ACTIVE)
      (generate_oath env u r2 (generate_oath env u r1 s).2).2.methods
      = [pm] := by
    rw [hmethods, List.filter_append, filter_filter_of_imp _ _ _ himp_pw,
      List.filter_append, filter_filter_of_imp _ _ _ himp_pw, hpm]
    simp [freshOathMethod, METHOD_PASSWORD, METHOD_OATH_KEY]
  have hoathG2 : List.filter (fun m => m.user == u.id &&
      m.method == METHOD_OATH_KEY && m.step == 2 &&
      m.status == METHOD_ACTIVE)
      (generate_oath env u r2 (generate_oath env u r1 s).2).2.methods =
      [freshOathMethod env u.id (s.next_method_id + 1) r2] := by
    rw [hmethods, List.filter_append]
    have hnil : List.filter (fun m => m.user == u.id &&
        m.method == METHOD_OATH_KEY && m.step == 2 &&
        m.status == METHOD_ACTIVE)
        (((s.methods.filter fun (m : Method) =>
            !(m.user == u.id && m.method == METHOD_OATH_KEY)) ++
          [freshOathMethod env u.id s.next_method_id r1]).filter
            fun (m : Method) =>
            !(m.user == u.id && m.method == METHOD_OATH_KEY)) = [] := by
      rw [List.filter_eq_nil_iff]
      intro x hx
      have hxkeep : (!(x.user == u.id && x.method == METHOD_OATH_KEY))
          = true := (List.mem_filter.mp hx).2
      intro hq
      simp only [Bool.and_eq_true] at hq
      rw [hq.1.1.1, hq.1.1.2] at hxkeep
      simp at hxkeep
    rw [hnil]
    simp [freshOathMethod, METHOD_OATH_KEY]
  refine ⟨rfl, ?_, ?_, ?_⟩
  · intro v hv
    rw [hmethods] at hv
    rcases List.mem_append.mp hv with hv1 | hv2
    · have hvin := (List.mem_filter.mp hv1).1
      rcases List.mem_append.mp hvin with hv3 | hv4
      · exact hfresh v (List.mem_filter.mp hv3).1
      · have hveq : v = freshOathMethod env u.id s.next_method_id r1 := by
          simpa using hv4
        have hvkeep := (List.mem_filter.mp hv1).2
        rw [hveq] at hvkeep
        simp [freshOathMethod, METHOD_OATH_KEY] at hvkeep
    · have hveq : v = freshOathMethod env u.id (s.next_method_id + 1) r2 :=
        by simpa using hv2
      rw [hveq]
      intro hcon
      exact hkeys (show env.b32encode r1 = env.b32encode r2 from hcon.symm)
  · exact ⟨freshOathMethod env u.id (s.next_method_id + 1) r2,
      by rw [hmethods]; exact List.mem_append_right _ (by simp),
      rfl, rfl, rfl, rfl⟩
  · have husers :
        (generate_oath env u r2 (generate_oath env u r1 s).2).2.users =
        s.users := rfl
    have hlog : login_password env false uname pw now
        (generate_oath env u r2 (generate_oath env u r1 s).2).2 =
        (Except.ok u,
         saveMethod (generate_oath env u r2 (generate_oath env u r1 s).2).2
           { pm with last_used := some now }) := by
      unfold login_password
      rw [hgate]
      simp only [Bool.false_eq_true, if_false]
      rw [husers, hlookup]
      dsimp only [getUnique]
      rw [hactive]
      simp only [Bool.not_true, Bool.false_eq_true, if_false]
      rw [hpw2]
      dsimp only [getUnique]
      rw [hhash]
      simp
    have hoath_pm : (fun (m : Method) => m.user == u.id &&
        m.method == METHOD_OATH_KEY && m.step == 2 &&
        m.status == METHOD_ACTIVE) { pm with last_used := some now }
        = false := by
      simp [hpm_method, METHOD_PASSWORD, METHOD_OATH_KEY]
    have hids : ∀ v ∈
        (generate_oath env u r2 (generate_oath env u r1 s).2).2.methods,
        Method.id v = Method.id { pm with last_used := some now } →
        (fun (m : Method) => m.user == u.id && m.method == METHOD_OATH_KEY
          && m.step == 2 && m.status == METHOD_ACTIVE) v = false := by
      intro v hv hvid
      by_cases hq : (v.user == u.id && v.method == METHOD_OATH_KEY &&
          v.step == 2 && v.status == METHOD_ACTIVE) = true
      · have hvmem : v ∈ List.filter (fun m => m.user == u.id &&
            m.method == METHOD_OATH_KEY && m.step == 2 &&
            m.status == METHOD_ACTIVE)
            (generate_oath env u r2 (generate_oath env u r1 s).2).2.methods
            := List.mem_filter.mpr ⟨hv, hq⟩
        rw [hoathG2] at hvmem
        have hveq := List.mem_singleton.mp hvmem
        rw [hveq] at hvid
        exact absurd hvid.symm hpmid
      · simpa using hq
    have hoath3 : List.filter (fun m => m.user == u.id &&
        m.method == METHOD_OATH_KEY && m.step == 2 &&
        m.status == METHOD_ACTIVE)
        (updateBy Method.id { pm with last_used := some now }
          (generate_oath env u r2 (generate_oath env u r1 s).2).2.methods)
        = [freshOathMethod env u.id (s.next_method_id + 1) r2] := by
      rw [filter_updateBy_untouched Method.id _ _ _ hids hoath_pm]
      exact hoathG2
    have hne : (env.get_totp (env.b32encode r2) ==
        env.get_totp (env.b32encode r1)) = false :=
      beq_eq_false_iff_ne.mpr htotp.symm
    unfold login_oath
    rw [hlog]
    dsimp only [saveMethod]
    rw [hoath3]
    dsimp only [getUnique, freshOathMethod]
    rw [hne]
    rfl

/-- C9 witness: re-enrolling `alice` with seed `seedB` after `seedA` leaves
no method holding the first key, and the TOTP code of the first key fails
`login_oath` with `invalid-login`. -/
theorem c9_oath_regeneration_invalidates_witness :
    (∀ v ∈ (generate_oath testEnv alice "seedB"
        (generate_oath testEnv alice "seedA" aliceStore).2).2.methods,
      v.token ≠ (generate_oath testEnv alice "seedA" aliceStore).1) ∧
    (login_oath testEnv (testEnv.get_totp (testEnv.b32encode "seedA"))
        "alice" "pw" 0
        (generate_oath testEnv alice "seedB"
          (generate_oath testEnv alice "seedA" aliceStore).2).2).1 =
      Except.error [INVALID_LOGIN] := by
  have h := c9_oath_regeneration_invalidates testEnv alice "seedA" "seedB"
    "alice" "pw" 0 aliceStore alicePasswordMethod (by decide) (by decide)
    (by decide) (by decide) rfl (by decide) (by decide) (by decide)
    (by decide)
  exact ⟨h.2.1, h.2.2.2⟩

end NoteApp
